import Mathlib

/-!
# Community-post HTTP handlers (`main.go`)

A shallow embedding of the five request handlers of `main.go`
(`createPost`, `getPosts`, `getPost`, `updatePost`, `deletePost`) together
with the properties of their validation, status mapping and store traffic.

The HTTP framework and the document store are external collaborators.  The
store is a record of five operations over an arbitrary state type, so every
theorem stated for a `Collection σ` holds for every behaviour the store can
show; `mapCollection` is one concrete store (a finite map from identifiers to
documents) used wherever a concrete run is wanted.
-/

set_option autoImplicit false

namespace InfoShare

/-! ## Identifiers -/

/-- The driver's `primitive.ObjectID`, a `[12]byte`; each element is one byte. -/
structure ObjectID where
  bytes : List Nat
  deriving DecidableEq, Repr

/-- The zero value `primitive.NilObjectID` (twelve zero bytes). -/
def NilObjectID : ObjectID := ⟨List.replicate 12 0⟩

/-- The driver's `ObjectID.IsZero`. -/
def ObjectID.IsZero (id : ObjectID) : Bool := decide (id = NilObjectID)

/-- Go's `encoding/hex.fromHexChar`: the value of one hexadecimal digit,
`none` for any other character (every byte of a non-ASCII character is
`≥ 0x80` and therefore rejected as well). -/
def fromHexChar (c : Char) : Option Nat :=
  if '0' ≤ c ∧ c ≤ '9' then some (c.toNat - '0'.toNat)
  else if 'a' ≤ c ∧ c ≤ 'f' then some (c.toNat - 'a'.toNat + 10)
  else if 'A' ≤ c ∧ c ≤ 'F' then some (c.toNat - 'A'.toNat + 10)
  else none

/-- Go's `encoding/hex.Decode`: two digits per output byte; an odd length or a
non-hexadecimal digit is an error. -/
def hexDecode : List Char → Option (List Nat)
  | [] => some []
  | [_] => none
  | a :: b :: rest =>
    match fromHexChar a, fromHexChar b, hexDecode rest with
    | some hi, some lo, some tl => some ((hi * 16 + lo) :: tl)
    | _, _, _ => none

/-- Modelled from the spec: the driver function `primitive.ObjectIDFromHex`,
which the three identifier handlers call, is library code outside `main.go`;
a well-formed store id is a text of 24 hexadecimal characters.  The function
returns `ErrInvalidHex` unless `len(s) == 24` (Go's `len` counts bytes) and
then hex-decodes the text into the twelve bytes; `none` stands for either
error. -/
def ObjectIDFromHex (s : String) : Option ObjectID :=
  if s.utf8ByteSize ≠ 24 then none
  else (hexDecode s.data).map ObjectID.mk

/-! ## Data model -/

/-- Go's `time.Time`, as nanoseconds since the epoch. -/
abbrev Time := Nat

/-- The struct `community_post`.  `ID` is the zero `ObjectID` when absent and
bears the JSON and BSON name `_id`, so the body parser fills it from a
client's `_id` and the store omits it when zero; `Image` is the nil pointer
when `none`. -/
structure community_post where
  ID : ObjectID
  Title : String
  Description : String
  Image : Option String
  Date : Time
  deriving DecidableEq, Repr

/-- A value held in a `map[string]interface{}` or in a stored document: a
decoded JSON scalar (`composite` keeps an array or object as its text), or a
`time.Time` put there by the server. -/
inductive Value where
  | null
  | bool (b : Bool)
  | number (n : Int)
  | string (s : String)
  | composite (text : String)
  | time (t : Time)
  deriving DecidableEq, Repr

/-- The entries of a Go map with string keys, or of a stored document. -/
abbrev Fields := List (String × Value)

/-- The value bound to key `k`, if any. -/
def Fields.lookup (fs : Fields) (k : String) : Option Value :=
  (fs.find? (fun kv => kv.1 == k)).map Prod.snd

/-- Removal of key `k`. -/
def Fields.erase (fs : Fields) (k : String) : Fields :=
  fs.filter (fun kv => kv.1 != k)

/-- Binding of key `k` to `v`, replacing an earlier binding. -/
def Fields.set (fs : Fields) (k : String) (v : Value) : Fields :=
  fs.erase k ++ [(k, v)]

/-- A Go `map[string]interface{}`; `none` is the nil map. -/
abbrev GoMap := Option Fields

/-- Go's `delete(m, k)`: a no-op on the nil map. -/
def GoMap.delete (m : GoMap) (k : String) : GoMap :=
  m.map (fun fs => fs.erase k)

/-- Go's `len(m)`: zero for the nil map. -/
def GoMap.len (m : GoMap) : Nat :=
  match m with
  | none => 0
  | some fs => fs.length

/-- Go's `m[k] = v`, giving the entries of the map afterwards; `none` is the
run-time fault "assignment to entry in nil map". -/
def GoMap.assign (m : GoMap) (k : String) (v : Value) : Option Fields :=
  match m with
  | none => none
  | some fs => some (fs.set k v)

/-- Key lookup in a Go map (nothing is bound in the nil map). -/
def GoMap.lookup (m : GoMap) (k : String) : Option Value :=
  match m with
  | none => none
  | some fs => fs.lookup k

/-- A Go slice; `none` is the nil slice. -/
abbrev GoSlice (α : Type) := Option (List α)

/-! ## Responses -/

/-- The JSON body of a response. -/
inductive Body where
  /-- An error body `fiber.Map{"error": msg}`, with `"details"` when present. -/
  | error (msg : String) (details : Option String)
  /-- A confirmation body `fiber.Map{"message": msg}`. -/
  | message (msg : String)
  /-- One post, as a JSON object. -/
  | post (p : community_post)
  /-- A JSON array of posts. -/
  | array (ps : List community_post)
  /-- The JSON literal `null`. -/
  | null
  deriving DecidableEq, Repr

/-- What a handler does: `c.Status(status).JSON(body)`, or a run-time fault. -/
inductive Result where
  | respond (status : Nat) (body : Body)
  | fault (msg : String)
  deriving DecidableEq, Repr

/-- The status code of a response (`none` for a fault). -/
def Result.status : Result → Option Nat
  | .respond st _ => some st
  | .fault _ => none

/-- The body written by `c.JSON(posts)` for a `[]community_post`.  Fiber
encodes with `encoding/json`, for which "a nil slice encodes as the null JSON
value" and every other slice, the empty one included, as a JSON array. -/
def marshalPosts (posts : GoSlice community_post) : Body :=
  match posts with
  | none => Body.null
  | some ps => Body.array ps

/-! ## The store -/

/-- An error returned by the driver; `ErrNoDocuments` is the sentinel
`mongo.ErrNoDocuments`. -/
inductive MongoError where
  | ErrNoDocuments
  | other (msg : String)
  deriving DecidableEq, Repr

/-- The method `Error()` of a driver error. -/
def MongoError.Error : MongoError → String
  | .ErrNoDocuments => "mongo: no documents in result"
  | .other msg => msg

/-- The `InsertedID interface{}` of an `InsertOneResult`. -/
inductive InsertedID where
  | objectID (id : ObjectID)
  | other (text : String)
  deriving DecidableEq, Repr

/-- The driver's `InsertOneResult`. -/
structure InsertOneResult where
  InsertedID : InsertedID
  deriving DecidableEq, Repr

/-- The driver's `UpdateResult` (the field the handler reads). -/
structure UpdateResult where
  MatchedCount : Nat
  deriving DecidableEq, Repr

/-- The driver's `DeleteResult`. -/
structure DeleteResult where
  DeletedCount : Nat
  deriving DecidableEq, Repr

/-- A cursor returned by `Find`: what decoding all of its documents gives,
either a decode error or the documents in the order the store yields them. -/
abbrev Cursor := Except MongoError (List community_post)

/-- The driver's `Cursor.All(ctx, &results)`.  It decodes the documents into
the slice from index 0 (appending once the slice is full) and ends with
`results = results[0:index]`; with no document, `index` is 0 and a nil slice
is re-sliced to a nil slice, while a non-nil one becomes empty.  A decode
error is returned as it is. -/
def Cursor.All (cur : Cursor) (results : GoSlice community_post) :
    Except MongoError (GoSlice community_post) :=
  match cur with
  | .error e => .error e
  | .ok [] => .ok (results.map (fun _ => []))
  | .ok (d :: ds) => .ok (some (d :: ds))

/-- The operations of `*mongo.Collection` the handlers use, over a store state
`σ`.  `FindOne` stands for `FindOne(...).Decode(...)`, `UpdateOne` takes the
`_id` of the filter and the document under `$set`, the others the `_id` of
their filter. -/
structure Collection (σ : Type) where
  InsertOne : community_post → σ → Except MongoError InsertOneResult × σ
  Find : σ → Except MongoError Cursor × σ
  FindOne : ObjectID → σ → Except MongoError community_post × σ
  UpdateOne : ObjectID → Fields → σ → Except MongoError UpdateResult × σ
  DeleteOne : ObjectID → σ → Except MongoError DeleteResult × σ

/-- One call made on the collection. -/
inductive StoreCall where
  | InsertOne (document : community_post)
  | Find
  | FindOne (id : ObjectID)
  | UpdateOne (id : ObjectID) (set : Fields)
  | DeleteOne (id : ObjectID)
  deriving DecidableEq, Repr

/-- The same collection, recording every call made on it, oldest first. -/
def Collection.traced {σ : Type} (coll : Collection σ) : Collection (σ × List StoreCall) where
  InsertOne doc st :=
    ((coll.InsertOne doc st.1).1, ((coll.InsertOne doc st.1).2, st.2 ++ [StoreCall.InsertOne doc]))
  Find st :=
    ((coll.Find st.1).1, ((coll.Find st.1).2, st.2 ++ [StoreCall.Find]))
  FindOne id st :=
    ((coll.FindOne id st.1).1, ((coll.FindOne id st.1).2, st.2 ++ [StoreCall.FindOne id]))
  UpdateOne id set st :=
    ((coll.UpdateOne id set st.1).1,
      ((coll.UpdateOne id set st.1).2, st.2 ++ [StoreCall.UpdateOne id set]))
  DeleteOne id st :=
    ((coll.DeleteOne id st.1).1, ((coll.DeleteOne id st.1).2, st.2 ++ [StoreCall.DeleteOne id]))

/-! ## A concrete store: a finite map from identifiers to documents -/

/-- The store: the documents, keyed by `_id`, in insertion order, and the
number of identifiers generated so far. -/
structure Store where
  docs : List (ObjectID × Fields)
  generated : Nat
  deriving DecidableEq, Repr

/-- The identifiers held by the store. -/
def Store.keys (s : Store) : List ObjectID := s.docs.map Prod.fst

/-- The document stored under `id`, if any. -/
def Store.find (s : Store) (id : ObjectID) : Option Fields :=
  (s.docs.find? (fun d => d.1 == id)).map Prod.snd

/-- The `n`-th generated identifier: `n` written in twelve bytes. -/
def freshID (n : Nat) : ObjectID :=
  ⟨(List.range 12).map (fun i => n / 256 ^ (11 - i) % 256)⟩

/-- The stored form of a post (all fields but `_id`, which is the key). -/
def marshalPost (p : community_post) : Fields :=
  [("title", Value.string p.Title), ("description", Value.string p.Description),
   ("image", match p.Image with
      | none => Value.null
      | some text => Value.string text),
   ("date", Value.time p.Date)]

/-- Decoding of a stored text field: a missing field is the zero value `""`,
a value of another type a decode error (`none`). -/
def decodeText (v : Option Value) : Option String :=
  match v with
  | none => some ""
  | some (Value.string t) => some t
  | some _ => none

/-- Decoding of the stored `image` field into a `*string`. -/
def decodeImage (v : Option Value) : Option (Option String) :=
  match v with
  | none => some none
  | some Value.null => some none
  | some (Value.string t) => some (some t)
  | some _ => none

/-- Decoding of the stored `date` field. -/
def decodeDate (v : Option Value) : Option Time :=
  match v with
  | none => some 0
  | some (Value.time t) => some t
  | some _ => none

/-- Decoding of a stored document into a `community_post`: a missing field is
the zero value, a field of the wrong type a decode error, any other field of
the document is ignored. -/
def decodePost (id : ObjectID) (doc : Fields) : Except MongoError community_post :=
  match decodeText (doc.lookup "title"), decodeText (doc.lookup "description"),
    decodeImage (doc.lookup "image"), decodeDate (doc.lookup "date") with
  | some title, some description, some image, some date =>
    .ok ⟨id, title, description, image, date⟩
  | _, _, _, _ => .error (.other "cannot decode document into community_post")

/-- The documents of a store, decoded in store order. -/
def decodeAll : List (ObjectID × Fields) → Except MongoError (List community_post)
  | [] => .ok []
  | d :: ds =>
    match decodePost d.1 d.2, decodeAll ds with
    | .ok p, .ok ps => .ok (p :: ps)
    | .error e, _ => .error e
    | _, .error e => .error e

/-- The finite-map store as a collection.  `InsertOne` keeps a non-zero `_id`
of the document and generates one otherwise (the `_id` tag is `omitempty`),
failing on a duplicate key; `UpdateOne` merges the `$set` fields into the
matching document; `DeleteOne` removes the first matching document and counts
what it removed. -/
def mapCollection : Collection Store where
  InsertOne post s :=
    let id := if post.ID.IsZero then freshID (s.generated + 1) else post.ID
    let gen := if post.ID.IsZero then s.generated + 1 else s.generated
    if id ∈ s.keys then
      (.error (.other "E11000 duplicate key error"), { s with generated := gen })
    else
      (.ok ⟨InsertedID.objectID id⟩, { docs := s.docs ++ [(id, marshalPost post)], generated := gen })
  Find s := (.ok (decodeAll s.docs), s)
  FindOne id s :=
    match s.find id with
    | none => (.error MongoError.ErrNoDocuments, s)
    | some doc => (decodePost id doc, s)
  UpdateOne id set s :=
    match s.find id with
    | none => (.ok ⟨0⟩, s)
    | some _ =>
      (.ok ⟨1⟩, { s with docs := s.docs.map (fun d =>
        if d.1 = id then (d.1, set.foldl (fun doc kv => Fields.set doc kv.1 kv.2) d.2) else d) })
  DeleteOne id s :=
    match s.find id with
    | none => (.ok ⟨0⟩, s)
    | some _ => (.ok ⟨1⟩, { s with docs := s.docs.eraseP (fun d => d.1 == id) })

/-- The finite-map store as one client sees it while a second client deletes
the record right after each of the first client's updates: the two round
trips of `updatePost` are not atomic. -/
def racingCollection : Collection Store where
  InsertOne := mapCollection.InsertOne
  Find := mapCollection.Find
  FindOne := mapCollection.FindOne
  UpdateOne id set s :=
    ((mapCollection.UpdateOne id set s).1,
      (mapCollection.DeleteOne id (mapCollection.UpdateOne id set s).2).2)
  DeleteOne := mapCollection.DeleteOne

/-! ## The handlers -/

section Handlers

variable {σ : Type}

/-- The handler `createPost`.  `body` is the outcome of `c.BodyParser(post)`,
`now` the value of `time.Now()`. -/
def createPost (coll : Collection σ) (now : Time) (body : Except String community_post)
    (s : σ) : Result × σ :=
  match body with
  | .error _ => (.respond 400 (.error "Invalid request body" none), s)
  | .ok post =>
    if post.Title = "" then
      (.respond 400 (.error "Title is required" none), s)
    else if post.Description = "" then
      (.respond 400 (.error "Description is required" none), s)
    else
      let post := { post with Date := now }
      match coll.InsertOne post s with
      | (.error _, s1) => (.respond 500 (.error "Failed to create post" none), s1)
      | (.ok insertResult, s1) =>
        match insertResult.InsertedID with
        | .objectID id => (.respond 201 (.post { post with ID := id }), s1)
        | .other _ => (.fault "interface conversion: interface {} is not primitive.ObjectID", s1)

/-- The handler `getPosts`.  The deferred `cursor.Close` only logs and is left
out; `posts` starts as the nil slice of `var posts []community_post`. -/
def getPosts (coll : Collection σ) (s : σ) : Result × σ :=
  match coll.Find s with
  | (.error err, s1) =>
    (.respond 500 (.error "Failed to fetch posts" (some err.Error)), s1)
  | (.ok cursor, s1) =>
    let posts : GoSlice community_post := none
    match cursor.All posts with
    | .error err => (.respond 500 (.error "Failed to decode posts" (some err.Error)), s1)
    | .ok posts => (.respond 200 (marshalPosts posts), s1)

/-- The handler `getPost`.  `id` is `c.Params("id")`. -/
def getPost (coll : Collection σ) (id : String) (s : σ) : Result × σ :=
  if id = "" then
    (.respond 400 (.error "Post ID is required" none), s)
  else
    match ObjectIDFromHex id with
    | none => (.respond 400 (.error "Invalid post ID format" none), s)
    | some objectID =>
      match coll.FindOne objectID s with
      | (.error err, s1) =>
        if err = MongoError.ErrNoDocuments then
          (.respond 404 (.error "Post not found" none), s1)
        else
          (.respond 500 (.error "Failed to fetch post" (some err.Error)), s1)
      | (.ok post, s1) => (.respond 200 (.post post), s1)

/-- The handler `updatePost`.  `body` is the outcome of
`c.BodyParser(&updates)`, `now` the value of `time.Now()`. -/
def updatePost (coll : Collection σ) (now : Time) (id : String) (body : Except String GoMap)
    (s : σ) : Result × σ :=
  if id = "" then
    (.respond 400 (.error "Post ID is required" none), s)
  else
    match ObjectIDFromHex id with
    | none => (.respond 400 (.error "Invalid post ID format" none), s)
    | some objectID =>
      match body with
      | .error _ => (.respond 400 (.error "Invalid request body" none), s)
      | .ok updates =>
        let updates := GoMap.delete updates "_id"
        let updates := GoMap.delete updates "date"
        if GoMap.len updates = 0 then
          (.respond 400 (.error "No valid fields to update" none), s)
        else
          match GoMap.assign updates "date" (Value.time now) with
          | none => (.fault "assignment to entry in nil map", s)
          | some updates =>
            match coll.UpdateOne objectID updates s with
            | (.error err, s1) =>
              (.respond 500 (.error "Failed to update post" (some err.Error)), s1)
            | (.ok result, s1) =>
              if result.MatchedCount = 0 then
                (.respond 404 (.error "Post not found" none), s1)
              else
                match coll.FindOne objectID s1 with
                | (.error err, s2) =>
                  (.respond 500 (.error "Failed to fetch updated post" (some err.Error)), s2)
                | (.ok updatedPost, s2) => (.respond 200 (.post updatedPost), s2)

/-- The handler `deletePost`. -/
def deletePost (coll : Collection σ) (id : String) (s : σ) : Result × σ :=
  if id = "" then
    (.respond 400 (.error "Post ID is required" none), s)
  else
    match ObjectIDFromHex id with
    | none => (.respond 400 (.error "Invalid post ID format" none), s)
    | some objectID =>
      match coll.DeleteOne objectID s with
      | (.error err, s1) =>
        (.respond 500 (.error "Failed to delete post" (some err.Error)), s1)
      | (.ok result, s1) =>
        if result.DeletedCount = 0 then
          (.respond 404 (.error "Post not found" none), s1)
        else
          (.respond 200 (.message "Post deleted successfully"), s1)

end Handlers

/-- The two responses with which a handler rejects the identifier itself. -/
def isIdentifierRejection (r : Result) : Bool :=
  decide (r = .respond 400 (.error "Post ID is required" none)) ||
  decide (r = .respond 400 (.error "Invalid post ID format" none))

/-- A hexadecimal digit: `0`-`9`, `a`-`f` or `A`-`F`. -/
def isHexDigit (c : Char) : Bool :=
  ('0' ≤ c && c ≤ '9') || ('a' ≤ c && c ≤ 'f') || ('A' ≤ c && c ≤ 'F')

/-- The store call addresses the record `id`. -/
def StoreCall.targets (c : StoreCall) (id : ObjectID) : Bool :=
  match c with
  | .FindOne i => decide (i = id)
  | .UpdateOne i _ => decide (i = id)
  | .DeleteOne i => decide (i = id)
  | _ => false

/-! ## Sample data -/

/-- The identifier written `507f1f77bcf86cd799439011`. -/
def sampleID : ObjectID := ⟨[80, 127, 31, 119, 188, 248, 108, 215, 153, 67, 144, 17]⟩

/-- A store holding no record. -/
def emptyStore : Store := ⟨[], 0⟩

/-- A store holding one record, under `sampleID`. -/
def sampleStore : Store :=
  ⟨[(sampleID, marshalPost ⟨sampleID, "Old", "text", none, 1700⟩)], 0⟩

/-- A store whose one record has a number where the title should be. -/
def brokenStore : Store := ⟨[(sampleID, [("title", Value.number 7)])], 0⟩

/-- A store holding two records. -/
def twoStore : Store :=
  ⟨[(freshID 1, marshalPost ⟨freshID 1, "First", "one", none, 1600⟩),
    (sampleID, marshalPost ⟨sampleID, "Old", "text", none, 1700⟩)], 1⟩

/-! ## Lemmas on field maps -/

theorem Fields.lookup_nil (k : String) : Fields.lookup [] k = none := rfl

theorem Fields.lookup_cons_eq (k : String) (v : Value) (tl : Fields) :
    Fields.lookup ((k, v) :: tl) k = some v := by
  simp [Fields.lookup, List.find?_cons]

theorem Fields.lookup_cons_ne (a k : String) (v : Value) (tl : Fields) (h : a ≠ k) :
    Fields.lookup ((a, v) :: tl) k = Fields.lookup tl k := by
  simp [Fields.lookup, List.find?_cons, h]

theorem Fields.erase_cons_eq (k : String) (v : Value) (tl : Fields) :
    Fields.erase ((k, v) :: tl) k = Fields.erase tl k := by
  simp [Fields.erase, List.filter_cons]

theorem Fields.erase_cons_ne (a k : String) (v : Value) (tl : Fields) (h : a ≠ k) :
    Fields.erase ((a, v) :: tl) k = (a, v) :: Fields.erase tl k := by
  simp [Fields.erase, List.filter_cons, h]

theorem Fields.lookup_erase_self (fs : Fields) (k : String) : (fs.erase k).lookup k = none := by
  induction fs with
  | nil => rfl
  | cons kv tl ih =>
    obtain ⟨a, v⟩ := kv
    by_cases h : a = k
    · subst h
      rw [Fields.erase_cons_eq, ih]
    · rw [Fields.erase_cons_ne a k v tl h, Fields.lookup_cons_ne a k v _ h, ih]

theorem Fields.lookup_erase_ne (fs : Fields) (k j : String) (h : j ≠ k) :
    (fs.erase k).lookup j = fs.lookup j := by
  induction fs with
  | nil => rfl
  | cons kv tl ih =>
    obtain ⟨a, v⟩ := kv
    by_cases h1 : a = k
    · subst h1
      rw [Fields.erase_cons_eq, ih, Fields.lookup_cons_ne a j v tl (fun e => h e.symm)]
    · rw [Fields.erase_cons_ne a k v tl h1]
      by_cases h2 : a = j
      · subst h2
        rw [Fields.lookup_cons_eq, Fields.lookup_cons_eq]
      · rw [Fields.lookup_cons_ne a j v _ h2, Fields.lookup_cons_ne a j v _ h2, ih]

theorem Fields.lookup_append (fs gs : Fields) (k : String) :
    (fs ++ gs).lookup k = (fs.lookup k).or (gs.lookup k) := by
  induction fs with
  | nil => simp [Fields.lookup]
  | cons kv tl ih =>
    obtain ⟨a, v⟩ := kv
    by_cases h : a = k
    · subst h
      rw [List.cons_append, Fields.lookup_cons_eq, Fields.lookup_cons_eq]
      rfl
    · rw [List.cons_append, Fields.lookup_cons_ne a k v _ h, Fields.lookup_cons_ne a k v _ h, ih]

theorem Fields.lookup_set_self (fs : Fields) (k : String) (v : Value) :
    (fs.set k v).lookup k = some v := by
  rw [Fields.set, Fields.lookup_append, Fields.lookup_erase_self, Fields.lookup_cons_eq]
  rfl

theorem Fields.lookup_set_ne (fs : Fields) (k j : String) (v : Value) (h : j ≠ k) :
    (fs.set k v).lookup j = fs.lookup j := by
  rw [Fields.set, Fields.lookup_append, Fields.lookup_erase_ne fs k j h,
    Fields.lookup_cons_ne k j v _ (fun e => h e.symm), Fields.lookup_nil]
  cases fs.lookup j <;> rfl

theorem Fields.lookup_of_mem (fs : Fields) (k : String) (v : Value) (h : (k, v) ∈ fs) :
    ∃ w, fs.lookup k = some w := by
  induction fs with
  | nil => cases h
  | cons hd tl ih =>
    obtain ⟨a, u⟩ := hd
    by_cases h1 : a = k
    · subst h1
      exact ⟨u, Fields.lookup_cons_eq a u tl⟩
    · rcases List.mem_cons.1 h with e | e
      · exact absurd (congrArg Prod.fst e).symm h1
      · obtain ⟨w, hw⟩ := ih e
        exact ⟨w, by rw [Fields.lookup_cons_ne a k u tl h1, hw]⟩

/-- A field map all of whose keys are `_id` or `date` is empty once both are
removed. -/
theorem Fields.erase_id_date_eq_nil (fs : Fields)
    (h : ∀ k v, fs.lookup k = some v → k = "_id" ∨ k = "date") :
    (fs.erase "_id").erase "date" = [] := by
  rw [Fields.erase, Fields.erase, List.filter_filter, List.filter_eq_nil_iff]
  intro kv hkv
  obtain ⟨k, v⟩ := kv
  obtain ⟨w, hw⟩ := Fields.lookup_of_mem fs k v hkv
  rcases h k w hw with e | e <;> simp [e]

/-! ## Lemmas on identifiers -/

theorem fromHexChar_isSome (c : Char) : (fromHexChar c).isSome = isHexDigit c := by
  unfold fromHexChar isHexDigit
  by_cases h1 : '0' ≤ c ∧ c ≤ '9'
  · simp [h1]
  · by_cases h2 : 'a' ≤ c ∧ c ≤ 'f'
    · simp [h1, h2]
    · by_cases h3 : 'A' ≤ c ∧ c ≤ 'F'
      · simp [h1, h2, h3]
      · rw [if_neg h1, if_neg h2, if_neg h3]
        simp only [not_and] at h1 h2 h3
        simp only [Option.isSome_none, Bool.false_eq, Bool.or_eq_false_iff, Bool.and_eq_false_imp,
          decide_eq_true_eq, decide_eq_false_iff_not]
        exact ⟨⟨h1, h2⟩, h3⟩

theorem utf8Size_of_isHexDigit (c : Char) (h : isHexDigit c = true) : c.utf8Size = 1 := by
  have hle : c.val.toNat ≤ 127 := by
    simp only [isHexDigit, Bool.or_eq_true, Bool.and_eq_true, decide_eq_true_eq] at h
    rcases h with (⟨_, h⟩ | ⟨_, h⟩) | ⟨_, h⟩
    · have h9 : c.val.toNat ≤ 57 := h
      omega
    · have hf : c.val.toNat ≤ 102 := h
      omega
    · have hF : c.val.toNat ≤ 70 := h
      omega
  have hv : c.val ≤ UInt32.ofNatCore 127 (by decide) := hle
  unfold Char.utf8Size
  simp only [hv, if_true]

theorem utf8Len_of_hex (l : List Char) (h : ∀ c ∈ l, isHexDigit c = true) :
    String.utf8Len l = l.length := by
  induction l with
  | nil => rfl
  | cons c cs ih =>
    rw [String.utf8Len_cons, ih (fun d hd => h d (List.mem_cons_of_mem c hd)),
      utf8Size_of_isHexDigit c (h c (List.mem_cons_self c cs)), List.length_cons]

theorem hexDecode_cons_cons_isSome (a b : Char) (rest : List Char) :
    (hexDecode (a :: b :: rest)).isSome =
      ((fromHexChar a).isSome && (fromHexChar b).isSome && (hexDecode rest).isSome) := by
  rw [hexDecode]
  cases fromHexChar a <;> cases fromHexChar b <;> cases hexDecode rest <;> rfl

theorem hexDecode_isSome_step (a b : Char) (rest : List Char)
    (ih : (hexDecode rest).isSome = true ↔
      rest.length % 2 = 0 ∧ ∀ c ∈ rest, isHexDigit c = true) :
    (hexDecode (a :: b :: rest)).isSome = true ↔
      (a :: b :: rest).length % 2 = 0 ∧ ∀ c ∈ a :: b :: rest, isHexDigit c = true := by
  rw [hexDecode_cons_cons_isSome, fromHexChar_isSome, fromHexChar_isSome]
  simp only [Bool.and_eq_true, ih, List.length_cons, List.mem_cons, forall_eq_or_imp]
  constructor
  · rintro ⟨⟨ha, hb⟩, hlen, hall⟩
    exact ⟨by omega, ha, hb, hall⟩
  · rintro ⟨hlen, ha, hb, hall⟩
    exact ⟨⟨ha, hb⟩, by omega, hall⟩

theorem hexDecode_isSome (l : List Char) :
    (hexDecode l).isSome = true ↔ l.length % 2 = 0 ∧ ∀ c ∈ l, isHexDigit c = true := by
  induction l using hexDecode.induct with
  | case1 => simp [hexDecode]
  | case2 a => simp [hexDecode]
  | case3 a b rest hi lo tl h3 h2 h1 ih => exact hexDecode_isSome_step a b rest ih
  | case4 a b rest hnone ih => exact hexDecode_isSome_step a b rest ih

/-- The accepted identifiers are the texts of 24 hexadecimal digits. -/
theorem ObjectIDFromHex_isSome (s : String) :
    (ObjectIDFromHex s).isSome = true ↔ s.length = 24 ∧ ∀ c ∈ s.data, isHexDigit c = true := by
  obtain ⟨l⟩ := s
  have hmap : (Option.map ObjectID.mk (hexDecode l)).isSome = (hexDecode l).isSome := by
    cases hexDecode l <;> rfl
  unfold ObjectIDFromHex
  simp only [String.utf8ByteSize_mk, String.length, ne_eq, ite_not]
  constructor
  · intro h
    by_cases h24 : String.utf8Len l = 24
    · rw [if_pos h24, hmap] at h
      have hx := (hexDecode_isSome l).1 h
      exact ⟨by rw [← utf8Len_of_hex l hx.2]; exact h24, hx.2⟩
    · rw [if_neg h24] at h
      cases h
  · rintro ⟨hlen, hhex⟩
    have h24 : String.utf8Len l = 24 := by rw [utf8Len_of_hex l hhex]; exact hlen
    rw [if_pos h24, hmap]
    exact (hexDecode_isSome l).2 ⟨by rw [hlen], hhex⟩

theorem ObjectIDFromHex_ne_empty (id : String) (oid : ObjectID)
    (h : ObjectIDFromHex id = some oid) : id ≠ "" := by
  intro e
  subst e
  have hn : ObjectIDFromHex "" = none := by decide
  rw [hn] at h
  cases h

/-! ## createPost -/

/-- C1. `createPost`, success path: for a parsed body with non-empty title and
description, when the store insert of the record succeeds with identifier `i`
the response is 201 and its body is the post with id `i`, the title,
description and image of the body and the date `now` (whatever date the body
carried); when the insert fails the response is 500.  The one store call made
is that insert, of the body with its date set to `now`. -/
theorem createPost_success {σ : Type} (coll : Collection σ) (now : Time)
    (post : community_post) (s : σ)
    (ht : post.Title ≠ "") (hd : post.Description ≠ "") :
    (∀ i s1, coll.InsertOne { post with Date := now } s = (.ok ⟨InsertedID.objectID i⟩, s1) →
        createPost coll now (.ok post) s =
          (.respond 201 (.post ⟨i, post.Title, post.Description, post.Image, now⟩), s1)) ∧
    (∀ e s1, coll.InsertOne { post with Date := now } s = (.error e, s1) →
        createPost coll now (.ok post) s =
          (.respond 500 (.error "Failed to create post" none), s1)) ∧
    (createPost coll.traced now (.ok post) (s, [])).2.2 =
      [StoreCall.InsertOne { post with Date := now }] := by
  refine ⟨?_, ?_, ?_⟩
  · intro i s1 h
    simp only [createPost, if_neg ht, if_neg hd, h]
  · intro e s1 h
    simp only [createPost, if_neg ht, if_neg hd, h]
  · simp only [createPost, if_neg ht, if_neg hd, Collection.traced]
    rcases coll.InsertOne { post with Date := now } s with ⟨_ | ⟨⟨_ | _⟩⟩, s1⟩ <;> rfl

/-- C1, concrete run: on the empty finite-map store the insert succeeds and the
post comes back with the generated identifier and the server date; on a store
that already holds the identifier the insert fails and the response is 500. -/
theorem createPost_success_witness :
    createPost mapCollection 1800 (.ok ⟨NilObjectID, "Hello", "text", some "pic", 5⟩) emptyStore =
      (.respond 201 (.post ⟨freshID 1, "Hello", "text", some "pic", 1800⟩),
        ⟨[(freshID 1, marshalPost ⟨NilObjectID, "Hello", "text", some "pic", 1800⟩)], 1⟩) ∧
    createPost mapCollection 1800 (.ok ⟨sampleID, "Hello", "text", none, 5⟩) sampleStore =
      (.respond 500 (.error "Failed to create post" none), sampleStore) :=
  ⟨(createPost_success mapCollection 1800 ⟨NilObjectID, "Hello", "text", some "pic", 5⟩ emptyStore
      (by decide) (by decide)).1 (freshID 1) _ rfl,
   (createPost_success mapCollection 1800 ⟨sampleID, "Hello", "text", none, 5⟩ sampleStore
      (by decide) (by decide)).2.1 (.other "E11000 duplicate key error") _ rfl⟩

/-- C2. `createPost`, validation: an empty title gives 400 "Title is required"
whatever the description; a non-empty title with an empty description gives
400 "Description is required"; in both cases the store is left as it was and
no call is made on it. -/
theorem createPost_validation {σ : Type} (coll : Collection σ) (now : Time)
    (post : community_post) (s : σ)
    (h : post.Title = "" ∨ post.Description = "") :
    (post.Title = "" →
      (createPost coll now (.ok post) s).1 = .respond 400 (.error "Title is required" none)) ∧
    (post.Title ≠ "" →
      (createPost coll now (.ok post) s).1 =
        .respond 400 (.error "Description is required" none)) ∧
    (createPost coll now (.ok post) s).2 = s ∧
    (createPost coll.traced now (.ok post) (s, [])).2 = (s, []) := by
  by_cases ht : post.Title = ""
  · refine ⟨fun _ => ?_, fun hne => absurd ht hne, ?_, ?_⟩ <;> simp only [createPost, if_pos ht]
  · have hd : post.Description = "" := h.resolve_left ht
    refine ⟨fun e => absurd e ht, fun _ => ?_, ?_, ?_⟩ <;>
      simp only [createPost, if_neg ht, if_pos hd]

/-- C2, concrete run: an empty title with a non-empty description, and a
non-empty title with an empty description, on the one-record store. -/
theorem createPost_validation_witness :
    createPost mapCollection 1800 (.ok ⟨NilObjectID, "", "text", none, 0⟩) sampleStore =
      (.respond 400 (.error "Title is required" none), sampleStore) ∧
    createPost mapCollection 1800 (.ok ⟨NilObjectID, "Hello", "", none, 0⟩) sampleStore =
      (.respond 400 (.error "Description is required" none), sampleStore) :=
  ⟨Prod.ext
      ((createPost_validation mapCollection 1800 ⟨NilObjectID, "", "text", none, 0⟩ sampleStore
        (Or.inl rfl)).1 rfl)
      (createPost_validation mapCollection 1800 ⟨NilObjectID, "", "text", none, 0⟩ sampleStore
        (Or.inl rfl)).2.2.1,
   Prod.ext
      ((createPost_validation mapCollection 1800 ⟨NilObjectID, "Hello", "", none, 0⟩ sampleStore
        (Or.inr rfl)).2.1 (by decide))
      (createPost_validation mapCollection 1800 ⟨NilObjectID, "Hello", "", none, 0⟩ sampleStore
        (Or.inr rfl)).2.2.1⟩

/-! ## updatePost -/

/-- The store calls of `updatePost` for a valid identifier and a body that
keeps a field once `_id` and `date` are removed. -/
theorem updatePost_calls {σ : Type} (coll : Collection σ) (now : Time) (id : String)
    (oid : ObjectID) (fs : Fields) (s : σ) (hid : ObjectIDFromHex id = some oid)
    (hne : (fs.erase "_id").erase "date" ≠ []) :
    ∃ rest, (updatePost coll.traced now id (.ok (some fs)) (s, [])).2.2 =
        StoreCall.UpdateOne oid (((fs.erase "_id").erase "date").set "date" (Value.time now))
          :: rest ∧
      ∀ c ∈ rest, c = StoreCall.FindOne oid := by
  have hid0 : id ≠ "" := ObjectIDFromHex_ne_empty id oid hid
  have hlen : ¬ ((fs.erase "_id").erase "date").length = 0 := fun h => hne (List.length_eq_zero.1 h)
  simp only [updatePost, if_neg hid0, hid, GoMap.delete, Option.map, GoMap.len, if_neg hlen,
    GoMap.assign, Collection.traced, List.nil_append]
  rcases coll.UpdateOne oid (((fs.erase "_id").erase "date").set "date" (Value.time now)) s
    with ⟨_ | ⟨⟨n⟩⟩, s1⟩
  · exact ⟨[], rfl, fun c hc => by cases hc⟩
  · by_cases hn : n = 0
    · subst hn
      exact ⟨[], rfl, fun c hc => by cases hc⟩
    · simp only [if_neg hn]
      rcases coll.FindOne oid s1 with ⟨_ | _, s2⟩
      · exact ⟨[StoreCall.FindOne oid], rfl, fun c hc => by simpa using hc⟩
      · exact ⟨[StoreCall.FindOne oid], rfl, fun c hc => by simpa using hc⟩

/-- The response of `updatePost` for a valid identifier and a body whose
field map is empty once `_id` and `date` are removed. -/
theorem updatePost_no_fields {σ : Type} (coll : Collection σ) (now : Time) (id : String)
    (oid : ObjectID) (m : GoMap) (s : σ) (hid : ObjectIDFromHex id = some oid)
    (hlen : GoMap.len ((m.delete "_id").delete "date") = 0) :
    updatePost coll now id (.ok m) s =
      (.respond 400 (.error "No valid fields to update" none), s) := by
  have hid0 : id ≠ "" := ObjectIDFromHex_ne_empty id oid hid
  simp only [updatePost, if_neg hid0, hid, if_pos hlen]

/-- C3. `updatePost`, update set: for a valid identifier and any parsed body
map, every field map the handler sends to the store's `UpdateOne` is addressed
to that identifier, binds no `_id`, binds `date` to the server time `now`, and
binds every other key exactly as the body does: it is the body with `_id` and
`date` removed and `date` set to `now`.  Whenever the body has a field other
than `_id` and `date`, that update is the first store call and the only
update (the one call that may follow is the re-fetch). -/
theorem updatePost_update_set {σ : Type} (coll : Collection σ) (now : Time) (id : String)
    (oid : ObjectID) (m : GoMap) (s : σ) (hid : ObjectIDFromHex id = some oid) :
    (∀ i set, StoreCall.UpdateOne i set ∈ (updatePost coll.traced now id (.ok m) (s, [])).2.2 →
      i = oid ∧ set.lookup "_id" = none ∧ set.lookup "date" = some (Value.time now) ∧
      (∀ k, k ≠ "_id" → k ≠ "date" → set.lookup k = m.lookup k) ∧
      ∃ fs, m = some fs ∧ set = ((fs.erase "_id").erase "date").set "date" (Value.time now)) ∧
    ((∃ k, k ≠ "_id" ∧ k ≠ "date" ∧ m.lookup k ≠ none) →
      ∃ set rest, (updatePost coll.traced now id (.ok m) (s, [])).2.2 =
          StoreCall.UpdateOne oid set :: rest ∧
        ∀ c ∈ rest, c = StoreCall.FindOne oid) := by
  have hstrip : ∀ (fs : Fields) (k : String), k ≠ "_id" → k ≠ "date" →
      ((fs.erase "_id").erase "date").lookup k = fs.lookup k := fun fs k h1 h2 => by
    rw [Fields.lookup_erase_ne _ "date" k h2, Fields.lookup_erase_ne _ "_id" k h1]
  cases m with
  | none =>
    have h0 := updatePost_no_fields coll.traced now id oid none (s, []) hid rfl
    rw [h0]
    refine ⟨fun i set hmem => (by cases hmem), ?_⟩
    rintro ⟨k, _, _, hk⟩
    exact absurd rfl hk
  | some fs =>
    by_cases hne : (fs.erase "_id").erase "date" = []
    · have h0 := updatePost_no_fields coll.traced now id oid (some fs) (s, []) hid
        (by simp [GoMap.delete, GoMap.len, hne])
      rw [h0]
      refine ⟨fun i set hmem => (by cases hmem), ?_⟩
      rintro ⟨k, h1, h2, hk⟩
      have hl := hstrip fs k h1 h2
      rw [hne] at hl
      exact absurd hl.symm hk
    · obtain ⟨rest, htrace, hrest⟩ := updatePost_calls coll now id oid fs s hid hne
      rw [htrace]
      refine ⟨fun i set hmem => ?_, fun _ => ⟨_, rest, rfl, hrest⟩⟩
      rcases List.mem_cons.1 hmem with e | e
      · injection e with e1 e2
        subst e1 e2
        refine ⟨rfl, ?_, Fields.lookup_set_self _ _ _, fun k h1 h2 => ?_, fs, rfl, rfl⟩
        · rw [Fields.lookup_set_ne _ "date" "_id" _ (by decide),
            Fields.lookup_erase_ne _ "date" "_id" (by decide), Fields.lookup_erase_self]
        · rw [Fields.lookup_set_ne _ "date" k _ h2, hstrip fs k h1 h2]
          rfl
      · cases hrest _ e

/-- C3, concrete run: the body `{"_id": "x", "date": "2000-01-01", "title":
"New"}` on the one-record store sends the set `{title: "New", date: now}`. -/
theorem updatePost_update_set_witness :
    ObjectIDFromHex "507f1f77bcf86cd799439011" = some sampleID ∧
    (∃ set rest, (updatePost mapCollection.traced 1800 "507f1f77bcf86cd799439011"
        (.ok (some [("_id", Value.string "x"), ("date", Value.string "2000-01-01"),
          ("title", Value.string "New")])) (sampleStore, [])).2.2 =
          StoreCall.UpdateOne sampleID set :: rest ∧
        ∀ c ∈ rest, c = StoreCall.FindOne sampleID) ∧
    (updatePost mapCollection.traced 1800 "507f1f77bcf86cd799439011"
        (.ok (some [("_id", Value.string "x"), ("date", Value.string "2000-01-01"),
          ("title", Value.string "New")])) (sampleStore, [])).2.2 =
      [StoreCall.UpdateOne sampleID [("title", Value.string "New"), ("date", Value.time 1800)],
        StoreCall.FindOne sampleID] :=
  ⟨by decide,
   (updatePost_update_set mapCollection 1800 "507f1f77bcf86cd799439011" sampleID
      (some [("_id", Value.string "x"), ("date", Value.string "2000-01-01"),
        ("title", Value.string "New")]) sampleStore (by decide)).2
      ⟨"title", by decide, by decide, by decide⟩,
   by decide⟩

/-- C4. `updatePost`, empty update set: for a valid identifier and a parsed
body in which every bound key is `_id` or `date` (the body `{}`, a body of
only `_id` and/or `date`, the nil map of JSON `null`), the response is 400
"No valid fields to update", the store is left as it was, no call is made on
it, and the handler does not fault. -/
theorem updatePost_empty_update_set {σ : Type} (coll : Collection σ) (now : Time)
    (id : String) (oid : ObjectID) (m : GoMap) (s : σ)
    (hid : ObjectIDFromHex id = some oid)
    (hempty : ∀ k v, m.lookup k = some v → k = "_id" ∨ k = "date") :
    updatePost coll now id (.ok m) s =
      (.respond 400 (.error "No valid fields to update" none), s) ∧
    (updatePost coll.traced now id (.ok m) (s, [])).2 = (s, []) ∧
    ∀ msg, (updatePost coll now id (.ok m) s).1 ≠ Result.fault msg := by
  have hlen : GoMap.len ((m.delete "_id").delete "date") = 0 := by
    cases m with
    | none => rfl
    | some fs =>
      simp only [GoMap.delete, Option.map, GoMap.len]
      rw [Fields.erase_id_date_eq_nil fs hempty]
      rfl
  refine ⟨updatePost_no_fields coll now id oid m s hid hlen, ?_, fun msg => ?_⟩
  · rw [updatePost_no_fields coll.traced now id oid m (s, []) hid hlen]
  · rw [updatePost_no_fields coll now id oid m s hid hlen]
    exact fun h => by cases h

/-- C4, concrete run: the nil map, the empty map and a body of only `_id` and
`date`, on the one-record store. -/
theorem updatePost_empty_update_set_witness :
    updatePost mapCollection 1800 "507f1f77bcf86cd799439011" (.ok none) sampleStore =
      (.respond 400 (.error "No valid fields to update" none), sampleStore) ∧
    updatePost mapCollection 1800 "507f1f77bcf86cd799439011" (.ok (some [])) sampleStore =
      (.respond 400 (.error "No valid fields to update" none), sampleStore) ∧
    updatePost mapCollection 1800 "507f1f77bcf86cd799439011"
        (.ok (some [("_id", Value.string "x"), ("date", Value.string "2000-01-01")]))
        sampleStore =
      (.respond 400 (.error "No valid fields to update" none), sampleStore) :=
  ⟨(updatePost_empty_update_set mapCollection 1800 "507f1f77bcf86cd799439011" sampleID none
      sampleStore (by decide) (fun k v h => by cases h)).1,
   (updatePost_empty_update_set mapCollection 1800 "507f1f77bcf86cd799439011" sampleID (some [])
      sampleStore (by decide) (fun k v h => by cases h)).1,
   (updatePost_empty_update_set mapCollection 1800 "507f1f77bcf86cd799439011" sampleID
      (some [("_id", Value.string "x"), ("date", Value.string "2000-01-01")])
      sampleStore (by decide) (fun k v h => by
        by_cases h1 : k = "_id"
        · exact Or.inl h1
        · by_cases h2 : k = "date"
          · exact Or.inr h2
          · rw [GoMap.lookup, Fields.lookup_cons_ne "_id" k _ _ (fun e => h1 e.symm),
              Fields.lookup_cons_ne "date" k _ _ (fun e => h2 e.symm)] at h
            cases h)).1⟩

/-! ## getPost -/

/-- C5. `getPost`, status mapping: an empty or malformed identifier gives 400
and no store call; for a well-formed identifier the response is 404 when the
lookup reports no document, 500 when it fails in any other way, and 200 with
exactly the record the store returned otherwise.  The well-formed identifiers
are the texts of 24 hexadecimal digits; `not-an-id` is not one. -/
theorem getPost_status_mapping {σ : Type} (coll : Collection σ) (id : String) (s : σ) :
    ((id = "" ∨ ObjectIDFromHex id = none) →
      (getPost coll id s).1.status = some 400 ∧ (getPost coll id s).2 = s ∧
      (getPost coll.traced id (s, [])).2 = (s, [])) ∧
    (∀ oid, ObjectIDFromHex id = some oid →
      (∀ s1, coll.FindOne oid s = (.error MongoError.ErrNoDocuments, s1) →
        getPost coll id s = (.respond 404 (.error "Post not found" none), s1)) ∧
      (∀ msg s1, coll.FindOne oid s = (.error (MongoError.other msg), s1) →
        getPost coll id s = (.respond 500 (.error "Failed to fetch post" (some msg)), s1)) ∧
      (∀ post s1, coll.FindOne oid s = (.ok post, s1) →
        getPost coll id s = (.respond 200 (.post post), s1))) ∧
    ((ObjectIDFromHex id).isSome = true ↔
      id.length = 24 ∧ ∀ c ∈ id.data, isHexDigit c = true) ∧
    ObjectIDFromHex "not-an-id" = none := by
  refine ⟨?_, ?_, ObjectIDFromHex_isSome id, by decide⟩
  · intro h
    by_cases h0 : id = ""
    · simp only [getPost, if_pos h0, Result.status, and_self]
    · have hn : ObjectIDFromHex id = none := h.resolve_left h0
      simp only [getPost, if_neg h0, hn, Result.status, and_self]
  · intro oid hid
    have h0 : id ≠ "" := ObjectIDFromHex_ne_empty id oid hid
    refine ⟨fun s1 h => ?_, fun msg s1 h => ?_, fun post s1 h => ?_⟩
    · simp only [getPost, if_neg h0, hid, h, if_true]
    · simp only [getPost, if_neg h0, hid, h, MongoError.Error]
      rfl
    · simp only [getPost, if_neg h0, hid, h]

/-- C5, concrete run on the finite-map store: a malformed identifier (400), a
well-formed identifier that is not stored (404), a stored document that does
not decode (500) and a stored record (200). -/
theorem getPost_status_mapping_witness :
    (getPost mapCollection "not-an-id" sampleStore).1.status = some 400 ∧
    getPost mapCollection "507f1f77bcf86cd799439011" emptyStore =
      (.respond 404 (.error "Post not found" none), emptyStore) ∧
    getPost mapCollection "507f1f77bcf86cd799439011" brokenStore =
      (.respond 500 (.error "Failed to fetch post"
        (some "cannot decode document into community_post")), brokenStore) ∧
    getPost mapCollection "507f1f77bcf86cd799439011" sampleStore =
      (.respond 200 (.post ⟨sampleID, "Old", "text", none, 1700⟩), sampleStore) :=
  ⟨((getPost_status_mapping mapCollection "not-an-id" sampleStore).1
      (Or.inr (by decide))).1,
   ((getPost_status_mapping mapCollection "507f1f77bcf86cd799439011" emptyStore).2.1
      sampleID (by decide)).1 emptyStore rfl,
   ((getPost_status_mapping mapCollection "507f1f77bcf86cd799439011" brokenStore).2.1
      sampleID (by decide)).2.1 _ brokenStore rfl,
   ((getPost_status_mapping mapCollection "507f1f77bcf86cd799439011" sampleStore).2.1
      sampleID (by decide)).2.2 _ sampleStore rfl⟩

/-! ## Identifier validation across the handlers -/

/-- C10. Identifier validation is the same in `getPost`, `updatePost` and
`deletePost`: an empty or malformed identifier is rejected by all three with
the same 400 response, whatever the body, leaving the store as it was and
making no call on it; a well-formed identifier is rejected by none of them,
and every store call any of them makes addresses the same converted id. -/
theorem identifier_validation_identical {σ : Type} (coll : Collection σ) (now : Time)
    (id : String) (body : Except String GoMap) (s : σ) :
    ((id = "" ∨ ObjectIDFromHex id = none) →
      ∃ msg, getPost coll id s = (.respond 400 (.error msg none), s) ∧
        updatePost coll now id body s = (.respond 400 (.error msg none), s) ∧
        deletePost coll id s = (.respond 400 (.error msg none), s) ∧
        isIdentifierRejection (.respond 400 (.error msg none)) = true ∧
        (getPost coll.traced id (s, [])).2.2 = [] ∧
        (updatePost coll.traced now id body (s, [])).2.2 = [] ∧
        (deletePost coll.traced id (s, [])).2.2 = []) ∧
    (∀ oid, ObjectIDFromHex id = some oid →
      isIdentifierRejection (getPost coll id s).1 = false ∧
      isIdentifierRejection (updatePost coll now id body s).1 = false ∧
      isIdentifierRejection (deletePost coll id s).1 = false ∧
      (getPost coll.traced id (s, [])).2.2 = [StoreCall.FindOne oid] ∧
      (deletePost coll.traced id (s, [])).2.2 = [StoreCall.DeleteOne oid] ∧
      ∀ c ∈ (updatePost coll.traced now id body (s, [])).2.2, c.targets oid = true) := by
  constructor
  · intro h
    by_cases h0 : id = ""
    · refine ⟨"Post ID is required", ?_, ?_, ?_, by decide, ?_, ?_, ?_⟩ <;>
        simp only [getPost, updatePost, deletePost, if_pos h0]
    · have hn : ObjectIDFromHex id = none := h.resolve_left h0
      refine ⟨"Invalid post ID format", ?_, ?_, ?_, by decide, ?_, ?_, ?_⟩ <;>
        simp only [getPost, updatePost, deletePost, if_neg h0, hn]
  · intro oid hid
    have h0 : id ≠ "" := ObjectIDFromHex_ne_empty id oid hid
    refine ⟨?_, ?_, ?_, ?_, ?_, ?_⟩
    · simp only [getPost, if_neg h0, hid]
      rcases coll.FindOne oid s with ⟨e | p, s1⟩
      · by_cases he : e = MongoError.ErrNoDocuments
        · simp [he, isIdentifierRejection]
        · simp [he, isIdentifierRejection]
      · simp [isIdentifierRejection]
    · simp only [updatePost, if_neg h0, hid]
      rcases body with e | m
      · simp [isIdentifierRejection]
      · by_cases hlen : GoMap.len ((m.delete "_id").delete "date") = 0
        · simp [hlen, isIdentifierRejection]
        · simp only [if_neg hlen]
          cases hm : GoMap.assign ((m.delete "_id").delete "date") "date" (Value.time now) with
          | none => simp [isIdentifierRejection]
          | some set =>
            simp only []
            rcases coll.UpdateOne oid set s with ⟨e | ⟨⟨n⟩⟩, s1⟩
            · simp [isIdentifierRejection]
            · by_cases hn : n = 0
              · simp [hn, isIdentifierRejection]
              · simp only [if_neg hn]
                rcases coll.FindOne oid s1 with ⟨e | p, s2⟩ <;> simp [isIdentifierRejection]
    · simp only [deletePost, if_neg h0, hid]
      rcases coll.DeleteOne oid s with ⟨e | ⟨⟨n⟩⟩, s1⟩
      · simp [isIdentifierRejection]
      · by_cases hn : n = 0
        · simp [hn, isIdentifierRejection]
        · simp [hn, isIdentifierRejection]
    · simp only [getPost, if_neg h0, hid, Collection.traced, List.nil_append]
      rcases coll.FindOne oid s with ⟨e | p, s1⟩
      · by_cases he : e = MongoError.ErrNoDocuments
        · simp [he]
        · simp [he]
      · rfl
    · simp only [deletePost, if_neg h0, hid, Collection.traced, List.nil_append]
      rcases coll.DeleteOne oid s with ⟨e | ⟨⟨n⟩⟩, s1⟩
      · rfl
      · by_cases hn : n = 0
        · simp [hn]
        · simp [hn]
    · intro c hc
      rcases body with e | m
      · simp only [updatePost, if_neg h0, hid] at hc
        cases hc
      · cases m with
        | none =>
          rw [updatePost_no_fields coll.traced now id oid none (s, []) hid rfl] at hc
          cases hc
        | some fs =>
          by_cases hne : (fs.erase "_id").erase "date" = []
          · rw [updatePost_no_fields coll.traced now id oid (some fs) (s, []) hid
              (by simp [GoMap.delete, GoMap.len, hne])] at hc
            cases hc
          · obtain ⟨rest, htrace, hrest⟩ := updatePost_calls coll now id oid fs s hid hne
            rw [htrace] at hc
            rcases List.mem_cons.1 hc with e | e
            · subst e
              simp [StoreCall.targets]
            · rw [hrest c e]
              simp [StoreCall.targets]

/-- C10, concrete run: `not-an-id` and the empty identifier are rejected alike
by the three handlers; `507f1f77bcf86cd799439011` is rejected by none and
`getPost` looks up the converted id. -/
theorem identifier_validation_identical_witness :
    (∃ msg, getPost mapCollection "not-an-id" sampleStore =
        (.respond 400 (.error msg none), sampleStore) ∧
      updatePost mapCollection 1800 "not-an-id" (.ok (some [("title", Value.string "New")]))
        sampleStore = (.respond 400 (.error msg none), sampleStore) ∧
      deletePost mapCollection "not-an-id" sampleStore =
        (.respond 400 (.error msg none), sampleStore)) ∧
    (getPost mapCollection.traced "507f1f77bcf86cd799439011" (sampleStore, [])).2.2 =
      [StoreCall.FindOne sampleID] :=
  ⟨(((identifier_validation_identical mapCollection 1800 "not-an-id"
        (.ok (some [("title", Value.string "New")])) sampleStore).1 (Or.inr (by decide))).imp
      (fun _ h => ⟨h.1, h.2.1, h.2.2.1⟩)),
   ((identifier_validation_identical mapCollection 1800 "507f1f77bcf86cd799439011"
        (.ok (some [("title", Value.string "New")])) sampleStore).2 sampleID (by decide)).2.2.2.1⟩

/-! ## deletePost on the finite-map store -/

theorem find?_key_eq_none (docs : List (ObjectID × Fields)) (k : ObjectID)
    (h : k ∉ docs.map Prod.fst) : docs.find? (fun d => d.1 == k) = none := by
  rw [List.find?_eq_none]
  intro d hd hk
  exact h (List.mem_map.2 ⟨d, hd, by simpa using hk⟩)

theorem find?_key_isSome (docs : List (ObjectID × Fields)) (k : ObjectID)
    (h : k ∈ docs.map Prod.fst) : ∃ d, docs.find? (fun d => d.1 == k) = some d := by
  obtain ⟨d, hd, hk⟩ := List.mem_map.1 h
  cases hf : docs.find? (fun d => d.1 == k) with
  | none =>
    rw [List.find?_eq_none] at hf
    exact absurd (by simpa using hk) (hf d hd)
  | some e => exact ⟨e, rfl⟩

/-- Removing the first document keyed `oid` from documents with distinct keys
removes the binding of `oid` and no other. -/
theorem find?_eraseP_key (docs : List (ObjectID × Fields)) (oid k : ObjectID)
    (hnodup : (docs.map Prod.fst).Nodup) :
    (docs.eraseP (fun d => d.1 == oid)).find? (fun d => d.1 == k) =
      if k = oid then none else docs.find? (fun d => d.1 == k) := by
  induction docs with
  | nil => simp
  | cons hd tl ih =>
    obtain ⟨a, doc⟩ := hd
    rw [List.map_cons, List.nodup_cons] at hnodup
    by_cases ha : a = oid
    · subst ha
      rw [List.eraseP_cons_of_pos (by simp)]
      by_cases hk : k = a
      · subst hk
        rw [if_pos rfl]
        exact find?_key_eq_none tl k hnodup.1
      · rw [if_neg hk, List.find?_cons_of_neg _ (by simpa using fun e => hk e.symm)]
    · rw [List.eraseP_cons_of_neg (by simpa using ha)]
      by_cases hk : a = k
      · subst hk
        rw [List.find?_cons_of_pos _ (by simp), if_neg ha, List.find?_cons_of_pos _ (by simp)]
      · rw [List.find?_cons_of_neg _ (by simpa using hk), ih hnodup.2,
          List.find?_cons_of_neg _ (by simpa using hk)]

/-- On documents with distinct keys, removing the first document keyed `oid`
removes every document keyed `oid`. -/
theorem eraseP_key_eq_filter (docs : List (ObjectID × Fields)) (oid : ObjectID)
    (hkeys : (docs.map Prod.fst).Nodup) :
    docs.eraseP (fun d => d.1 == oid) = docs.filter (fun d => d.1 != oid) := by
  induction docs with
  | nil => rfl
  | cons hd tl ih =>
    rw [List.map_cons, List.nodup_cons] at hkeys
    by_cases ha : hd.1 = oid
    · rw [List.eraseP_cons_of_pos (by simpa using ha), List.filter_cons_of_neg (by simpa using ha)]
      symm
      rw [List.filter_eq_self]
      intro e he
      have : e.1 ≠ oid := fun h => hkeys.1 (List.mem_map.2 ⟨e, he, by rw [h, ha]⟩)
      simpa using this
    · rw [List.eraseP_cons_of_neg (by simpa using ha),
        List.filter_cons_of_pos (by simpa using ha), ih hkeys.2]

/-- C6. `deletePost` twice on the finite-map store: for a store with distinct
keys and a well-formed identifier present in it, the first call answers 200
with the confirmation message and removes exactly that record (its binding is
gone, every other binding and the order of the rest are kept, one document
fewer is held); the second call with the same identifier answers 404 and
leaves the store as the first call left it. -/
theorem deletePost_twice (s : Store) (id : String) (oid : ObjectID)
    (hid : ObjectIDFromHex id = some oid)
    (hnodup : s.keys.Nodup) (hmem : oid ∈ s.keys) :
    (deletePost mapCollection id s).1 = .respond 200 (.message "Post deleted successfully") ∧
    (∀ k, (deletePost mapCollection id s).2.find k = if k = oid then none else s.find k) ∧
    (deletePost mapCollection id s).2.docs = s.docs.filter (fun d => d.1 != oid) ∧
    (deletePost mapCollection id s).2.docs.length + 1 = s.docs.length ∧
    deletePost mapCollection id (deletePost mapCollection id s).2 =
      (.respond 404 (.error "Post not found" none), (deletePost mapCollection id s).2) := by
  have h0 : id ≠ "" := ObjectIDFromHex_ne_empty id oid hid
  obtain ⟨d, hd⟩ := find?_key_isSome s.docs oid hmem
  have hfind : s.find oid = some d.2 := by rw [Store.find, hd]; rfl
  have h1 : deletePost mapCollection id s =
      (.respond 200 (.message "Post deleted successfully"),
        { s with docs := s.docs.eraseP (fun d => d.1 == oid) }) := by
    simp [deletePost, if_neg h0, hid, mapCollection, hfind]
  have hgone : ∀ k, (s.docs.eraseP (fun d => d.1 == oid)).find? (fun d => d.1 == k) =
      if k = oid then none else s.docs.find? (fun d => d.1 == k) :=
    fun k => find?_eraseP_key s.docs oid k hnodup
  have hfind2 : Store.find { s with docs := s.docs.eraseP (fun d => d.1 == oid) } oid = none := by
    rw [Store.find, hgone oid, if_pos rfl]
    rfl
  have hdmem : d ∈ s.docs := List.mem_of_find?_eq_some hd
  have hdkey : (d.1 == oid) = true := by simpa using List.find?_some hd
  rw [h1]
  refine ⟨rfl, fun k => ?_, ?_, ?_, ?_⟩
  · rw [Store.find, hgone k, Store.find]
    by_cases hk : k = oid
    · rw [if_pos hk, if_pos hk]
      rfl
    · rw [if_neg hk, if_neg hk]
  · show s.docs.eraseP (fun d => d.1 == oid) = s.docs.filter (fun d => d.1 != oid)
    exact eraseP_key_eq_filter s.docs oid hnodup
  · show (s.docs.eraseP (fun d => d.1 == oid)).length + 1 = s.docs.length
    rw [List.length_eraseP_of_mem hdmem hdkey]
    have : 0 < s.docs.length := List.length_pos_of_mem hdmem
    omega
  · simp [deletePost, if_neg h0, hid, mapCollection, hfind2]

/-- C6, concrete run: on the two-record store the first call removes the
record under `sampleID` and keeps the other, the second call answers 404. -/
theorem deletePost_twice_witness :
    (deletePost mapCollection "507f1f77bcf86cd799439011" twoStore).1 =
      .respond 200 (.message "Post deleted successfully") ∧
    (deletePost mapCollection "507f1f77bcf86cd799439011" twoStore).2.docs =
      [(freshID 1, marshalPost ⟨freshID 1, "First", "one", none, 1600⟩)] ∧
    (deletePost mapCollection "507f1f77bcf86cd799439011"
        (deletePost mapCollection "507f1f77bcf86cd799439011" twoStore).2).1 =
      .respond 404 (.error "Post not found" none) :=
  ⟨(deletePost_twice twoStore "507f1f77bcf86cd799439011" sampleID (by decide) (by decide)
      (by decide)).1,
   by decide,
   congrArg Prod.fst (deletePost_twice twoStore "507f1f77bcf86cd799439011" sampleID (by decide)
      (by decide) (by decide)).2.2.2.2⟩

/-! ## Where the handlers leave the stated behaviour -/

/-- C7. The re-fetch of `updatePost` does not tell "no document found" from
other failures: on the finite-map store with a second client deleting the
record between the update and the re-fetch, the update matches one record, the
re-fetch finds none, and the response is 500 "Failed to fetch updated post"
carrying the text of `mongo.ErrNoDocuments`; `getPost` on the store so left
answers 404 for the same identifier. -/
theorem updatePost_refetch_no_document :
    updatePost racingCollection 1800 "507f1f77bcf86cd799439011"
        (.ok (some [("title", Value.string "New")])) sampleStore =
      (.respond 500 (.error "Failed to fetch updated post"
        (some "mongo: no documents in result")), emptyStore) ∧
    (updatePost racingCollection.traced 1800 "507f1f77bcf86cd799439011"
        (.ok (some [("title", Value.string "New")])) (sampleStore, [])).2.2 =
      [StoreCall.UpdateOne sampleID [("title", Value.string "New"), ("date", Value.time 1800)],
        StoreCall.FindOne sampleID] ∧
    getPost racingCollection "507f1f77bcf86cd799439011" emptyStore =
      (.respond 404 (.error "Post not found" none), emptyStore) := by
  decide

/-- C8. `createPost` hands a client-chosen identifier to the store: for a body
whose `_id` decoded to `507f1f77bcf86cd799439011`, the record given to
`InsertOne` carries that identifier, the store generates none, and the 201
response returns the client's identifier. -/
theorem createPost_client_identifier :
    createPost mapCollection.traced 1800 (.ok ⟨sampleID, "Hello", "text", none, 0⟩)
        (emptyStore, []) =
      (.respond 201 (.post ⟨sampleID, "Hello", "text", none, 1800⟩),
        (⟨[(sampleID, marshalPost ⟨sampleID, "Hello", "text", none, 1800⟩)], 0⟩,
          [StoreCall.InsertOne ⟨sampleID, "Hello", "text", none, 1800⟩])) ∧
    sampleID.IsZero = false := by
  decide

/-- C9. `getPosts` on a store holding no record answers 200 with the JSON
literal `null`, not the empty array: the slice `posts` is declared nil and
`Cursor.All` leaves it nil when there is nothing to decode. -/
theorem getPosts_empty_store_null :
    getPosts mapCollection emptyStore = (.respond 200 Body.null, emptyStore) ∧
    (getPosts mapCollection emptyStore).1 ≠ .respond 200 (Body.array []) := by
  decide

/-- When the store returns at least one record, `getPosts` answers 200 with
the array of exactly the records returned, in the order returned. -/
theorem getPosts_records {σ : Type} (coll : Collection σ) (s s1 : σ) (d : community_post)
    (ds : List community_post) (h : coll.Find s = (.ok (.ok (d :: ds)), s1)) :
    getPosts coll s = (.respond 200 (Body.array (d :: ds)), s1) := by
  simp only [getPosts, h, Cursor.All, marshalPosts]

/-- A failing query or a failing decode makes `getPosts` answer 500. -/
theorem getPosts_failure {σ : Type} (coll : Collection σ) (s s1 : σ) (e : MongoError)
    (h : coll.Find s = (.error e, s1) ∨ coll.Find s = (.ok (.error e), s1)) :
    (getPosts coll s).1.status = some 500 ∧ (getPosts coll s).2 = s1 := by
  rcases h with h | h <;> simp only [getPosts, h, Cursor.All, Result.status, and_self]

/-- In `getPost`, `deletePost` and the update step of `updatePost`, a
well-formed identifier that matches no record gives 404. -/
theorem not_found_is_404 {σ : Type} (coll : Collection σ) (now : Time) (id : String)
    (oid : ObjectID) (fs : Fields) (s s1 : σ) (hid : ObjectIDFromHex id = some oid)
    (hne : (fs.erase "_id").erase "date" ≠ []) :
    (coll.FindOne oid s = (.error MongoError.ErrNoDocuments, s1) →
      getPost coll id s = (.respond 404 (.error "Post not found" none), s1)) ∧
    (coll.DeleteOne oid s = (.ok ⟨0⟩, s1) →
      deletePost coll id s = (.respond 404 (.error "Post not found" none), s1)) ∧
    (coll.UpdateOne oid (((fs.erase "_id").erase "date").set "date" (Value.time now)) s =
        (.ok ⟨0⟩, s1) →
      updatePost coll now id (.ok (some fs)) s =
        (.respond 404 (.error "Post not found" none), s1)) := by
  have h0 : id ≠ "" := ObjectIDFromHex_ne_empty id oid hid
  have hlen : ¬ ((fs.erase "_id").erase "date").length = 0 := fun h => hne (List.length_eq_zero.1 h)
  refine ⟨fun h => ?_, fun h => ?_, fun h => ?_⟩
  · simp only [getPost, if_neg h0, hid, h, if_true]
  · simp only [deletePost, if_neg h0, hid, h, if_true]
  · simp only [updatePost, if_neg h0, hid, GoMap.delete, Option.map, GoMap.len, if_neg hlen,
      GoMap.assign, h, if_true]

/-- In the re-fetch of `updatePost`, every failure of the lookup gives 500,
"no document found" included. -/
theorem updatePost_refetch_failure {σ : Type} (coll : Collection σ) (now : Time) (id : String)
    (oid : ObjectID) (fs : Fields) (s s1 s2 : σ) (n : Nat) (e : MongoError)
    (hid : ObjectIDFromHex id = some oid)
    (hne : (fs.erase "_id").erase "date" ≠ []) (hn : n ≠ 0)
    (hupdate : coll.UpdateOne oid (((fs.erase "_id").erase "date").set "date" (Value.time now)) s =
      (.ok ⟨n⟩, s1))
    (hfind : coll.FindOne oid s1 = (.error e, s2)) :
    updatePost coll now id (.ok (some fs)) s =
      (.respond 500 (.error "Failed to fetch updated post" (some e.Error)), s2) := by
  have h0 : id ≠ "" := ObjectIDFromHex_ne_empty id oid hid
  have hlen : ¬ ((fs.erase "_id").erase "date").length = 0 := fun h => hne (List.length_eq_zero.1 h)
  simp only [updatePost, if_neg h0, hid, GoMap.delete, Option.map, GoMap.len, if_neg hlen,
    GoMap.assign, hupdate, if_neg hn, hfind]

end InfoShare
